import Mathlib

/-
Verification of the mlx-ml python driver (packages/driver/src/mlx-ml/python).

Shallow embedding conventions:
- Python strings are Lean String values (with some core lemmas stated over
  the underlying List Char data).
- A Python attribute that may be absent is modelled as an Option field.
  At every modelled call site an absent attribute and an attribute whose
  value is None behave identically (hasattr guards followed by a
  comparison against an integer or a non-None check), so both are
  modelled as none.
- Python dicts with string keys are modelled as association lists; dict
  lookup is an assoc-list lookup on the first matching key.
- External collaborators (the mlx_lm runtime: apply_chat_template,
  stream_generate, json.loads) are modelled as function-valued fields or
  explicit parameters; the driver code itself is translated directly.
-/

namespace MlxDriver

/-- A chat message: a role string and a content string. Roles are open
strings, as in the python code. -/
structure Message where
  role : String
  content : String
deriving DecidableEq

/-- Assoc-list lookup, modelling python dict .get on string keys. -/
def assocLookup {α : Type} (l : List (String × α)) (k : String) : Option α :=
  match l with
  | [] => none
  | (k2, v) :: rest => if k2 = k then some v else assocLookup rest k

/-- True when an Except value is a success, modelling a python call that
raises no exception. -/
def exceptOk {ε α : Type} : Except ε α → Bool
  | .ok _ => true
  | .error _ => false

/--
Model of the tokenizer object handed to the driver by mlx_lm.load.
Fields correspond to the attributes the driver reads:
- hasApplyChatTemplate models hasattr(tokenizer, "apply_chat_template");
- applyChatTemplate models apply_chat_template(messages, tokenize=False,
  add_generation_prompt=b): it either returns the rendered string or
  raises (modelled as Except.error with the exception text);
- chatTemplate models tokenizer.chat_template (none = absent or None);
- specialTokensMap / addedTokensEncoder model the two dict attributes
  (none = attribute absent);
- the *_token and *_token_id fields model the corresponding attributes
  (none = absent or None); eod_token_id models
  getattr(tokenizer, "eod_token_id", None), an attribute the driver asks
  for but standard tokenizers do not define;
- convert_tokens_to_ids models the text-to-id lookup, which returns the
  unknown-token id for unregistered spellings.
-/
structure Tokenizer where
  hasApplyChatTemplate : Bool
  applyChatTemplate : List Message → Bool → Except String String
  chatTemplate : Option String
  specialTokensMap : Option (List (String × String))
  addedTokensEncoder : Option (List (String × Nat))
  eos_token : Option String
  bos_token : Option String
  unk_token : Option String
  pad_token : Option String
  eos_token_id : Option Nat
  eod_token_id : Option Nat
  bos_token_id : Option Nat
  unk_token_id : Option Nat
  pad_token_id : Option Nat
  convert_tokens_to_ids : String → Nat
  vocab_size : Nat
  model_max_length : Option Nat

/--
One generation chunk yielded by stream_generate (a GenerationResponse).
finish_reason, token and token_ids model optional attributes: none means
the attribute is absent (or None, for finish_reason).
-/
structure Chunk where
  text : String
  finish_reason : Option String
  token : Option Nat
  token_ids : Option (List Nat)

/--
The candidate end-token-id list built inside is_eod_token
(token_utils.py lines 26 to 57): ids resolved from special_tokens_map
through added_tokens_encoder for "eos_token" and "eoi_token" (guarded by
hasattr of both dicts and by python truthiness of the token text), then
the registered "end_of_turn" conversational marker, then the directly
exposed eos_token_id attribute as a final fallback.
-/
def end_token_ids (tokenizer : Tokenizer) : List Nat :=
  let fromSpecialMap : List Nat :=
    match tokenizer.specialTokensMap, tokenizer.addedTokensEncoder with
    | some specialMap, some addedEncoder =>
      let fromKey (k : String) : List Nat :=
        match assocLookup specialMap k with
        | some s =>
          if s ≠ "" then
            match assocLookup addedEncoder s with
            | some i => [i]
            | none => []
          else []
        | none => []
      fromKey "eos_token" ++ fromKey "eoi_token"
    | _, _ => []
  let fromConversationEnd : List Nat :=
    match tokenizer.addedTokensEncoder with
    | some addedEncoder =>
      match assocLookup addedEncoder "<end_of_turn>" with
      | some i => [i]
      | none => []
    | none => []
  let fromEosAttr : List Nat :=
    match tokenizer.eos_token_id with
    | some i => [i]
    | none => []
  fromSpecialMap ++ fromConversationEnd ++ fromEosAttr

/--
token_utils.is_eod_token: finish_reason equal to the literal "stop"
wins first; otherwise, if the chunk carries a single token id, it is
membership-tested against end_token_ids (python collapses duplicates
through set(), which does not change membership); otherwise False.
The python function never looks at token_ids.
-/
def is_eod_token (response : Chunk) (tokenizer : Tokenizer) : Bool :=
  if response.finish_reason = some "stop" then
    true
  else
    match response.token with
    | some t => decide (t ∈ end_token_ids tokenizer)
    | none => false

/-- An entry of the special_tokens mapping: a single token or a
start/end pair. -/
inductive TokenEntry where
  | single : String → Nat → TokenEntry
  | pair : String → Nat → String → Nat → TokenEntry
deriving DecidableEq

/-- The standard_tokens dict of get_special_tokens: each name paired
with the token-text attribute and the id obtained by
getattr(tokenizer, name + "_token_id", None). Note that the "eod" name
reads the eos_token text but asks for an attribute named eod_token_id. -/
def standardTokens (tokenizer : Tokenizer) : List (String × Option String × Option Nat) :=
  [("eod", tokenizer.eos_token, tokenizer.eod_token_id),
   ("bos", tokenizer.bos_token, tokenizer.bos_token_id),
   ("unk", tokenizer.unk_token, tokenizer.unk_token_id),
   ("pad", tokenizer.pad_token, tokenizer.pad_token_id)]

/-- The pair_tokens dict of get_special_tokens: name, start spelling,
end spelling. -/
def pair_tokens : List (String × String × String) :=
  [("system", "<|system|>", "<|/system|>"),
   ("user", "<|user|>", "<|/user|>"),
   ("assistant", "<|assistant|>", "<|/assistant|>"),
   ("code", "<|code_start|>", "<|code_end|>"),
   ("python", "<|python|>", "<|/python|>"),
   ("javascript", "<|javascript|>", "<|/javascript|>"),
   ("bash", "<|bash|>", "<|/bash|>"),
   ("quote", "<|quote|>", "<|/quote|>"),
   ("ref", "<|ref|>", "<|/ref|>"),
   ("citation", "<|citation|>", "<|/citation|>"),
   ("table", "<|table|>", "<|/table|>"),
   ("heading", "<|heading|>", "<|/heading|>"),
   ("image", "<|image|>", "<|/image|>"),
   ("audio", "<|audio|>", "<|/audio|>"),
   ("video", "<|video|>", "<|/video|>"),
   ("tool_call", "<|tool_call|>", "<|/tool_call|>"),
   ("function", "<|function|>", "<|/function|>"),
   ("api", "<|api|>", "<|/api|>"),
   ("search", "<|search|>", "<|/search|>"),
   ("knowledge", "<|knowledge|>", "<|/knowledge|>"),
   ("context", "<|context|>", "<|/context|>"),
   ("thinking", "<|thinking|>", "</thinking>"),
   ("reasoning", "<|reasoning|>", "<|/reasoning|>"),
   ("scratchpad", "<|scratchpad|>", "<|/scratchpad|>"),
   ("analysis", "<|analysis|>", "<|/analysis|>"),
   ("summary", "<|summary|>", "<|/summary|>"),
   ("explanation", "<|explanation|>", "<|/explanation|>")]

/-- The single_tokens dict of get_special_tokens. The first entry has
the name fim_ followed by the word for the leading piece; the literal
spellings are copied from the source. -/
def single_tokens : List (String × String) :=
  [("fim_prefix", "<|fim_prefix|>"),
   ("fim_middle", "<|fim_middle|>"),
   ("fim_suffix", "<|fim_suffix|>"),
   ("list_item", "<|list_item|>"),
   ("vision", "<|vision|>"),
   ("code_inline", "`"),
   ("code_block_start", "```"),
   ("code_block_end", "```")]

/-- The standard-token section of get_special_tokens: an entry is added
when the token text is not None and the *_token_id attribute resolves to
a value; there is no comparison against the unknown id here. -/
def standardEntries (tokenizer : Tokenizer) : List (String × TokenEntry) :=
  (standardTokens tokenizer).filterMap fun x =>
    match x.2.1, x.2.2 with
    | some txt, some i => some (x.1, TokenEntry.single txt i)
    | _, _ => none

/-- The pair-token section of get_special_tokens: both resolved ids must
differ from tokenizer.unk_token_id (in python an int never equals None,
hence the comparison of options). -/
def pairEntries (tokenizer : Tokenizer) : List (String × TokenEntry) :=
  pair_tokens.filterMap fun x =>
    let sid := tokenizer.convert_tokens_to_ids x.2.1
    let eid := tokenizer.convert_tokens_to_ids x.2.2
    if some sid ≠ tokenizer.unk_token_id ∧ some eid ≠ tokenizer.unk_token_id then
      some (x.1, TokenEntry.pair x.2.1 sid x.2.2 eid)
    else none

/-- The single-token section of get_special_tokens: the resolved id must
differ from tokenizer.unk_token_id. -/
def singleEntries (tokenizer : Tokenizer) : List (String × TokenEntry) :=
  single_tokens.filterMap fun x =>
    let i := tokenizer.convert_tokens_to_ids x.2
    if some i ≠ tokenizer.unk_token_id then
      some (x.1, TokenEntry.single x.2 i)
    else none

/-- token_utils.get_special_tokens: the special_tokens dict in python
insertion order (standard entries, then pair entries, then single
entries; all candidate names are distinct, so the assoc list faithfully
models the dict). -/
def get_special_tokens (tokenizer : Tokenizer) : List (String × TokenEntry) :=
  standardEntries tokenizer ++ pairEntries tokenizer ++ singleEntries tokenizer

/-- Chat-template info reported in features (get_chat_template_info).
The constant-empty constraints field of the python dict carries no
information and is not modelled. -/
structure TemplateInfo where
  template_string : Option String
  supported_roles : List String
  preview : Option String
deriving DecidableEq

/-- The fixed role-probe list of get_chat_template_info. -/
def test_roles : List String := ["system", "user", "assistant", "tool", "function"]

/-- token_utils.get_chat_template_info: None without the renderer;
otherwise the roles whose one-message probe renders without raising,
plus a preview built from the supported subset of system, user,
assistant (a render failure is reported inside the preview string). -/
def get_chat_template_info (tokenizer : Tokenizer) : Option TemplateInfo :=
  if tokenizer.hasApplyChatTemplate then
    let roles := test_roles.filter fun r =>
      exceptOk (tokenizer.applyChatTemplate [⟨r, "test"⟩] false)
    let preview : Option String :=
      if roles.isEmpty then none
      else
        let sample :=
          (if "system" ∈ roles then [(⟨"system", "You are a helpful assistant."⟩ : Message)] else []) ++
          (if "user" ∈ roles then [(⟨"user", "Hello!"⟩ : Message)] else []) ++
          (if "assistant" ∈ roles then [(⟨"assistant", "Hi there!"⟩ : Message)] else [])
        match tokenizer.applyChatTemplate sample false with
        | .ok s => some s
        | .error e => some ("Preview error: " ++ e)
    some ⟨tokenizer.chatTemplate, roles, preview⟩
  else none

/-- The features object built by get_tokenizer_features. -/
structure Features where
  apply_chat_template : Bool
  vocab_size : Nat
  model_max_length : Option Nat
  chat_template : Option TemplateInfo
deriving DecidableEq

/-- token_utils.get_tokenizer_features. -/
def get_tokenizer_features (tokenizer : Tokenizer) : Features :=
  { apply_chat_template := tokenizer.hasApplyChatTemplate
    vocab_size := tokenizer.vocab_size
    model_max_length := tokenizer.model_max_length
    chat_template := get_chat_template_info tokenizer }

/-- The capabilities object built by get_capabilities. -/
structure Capabilities where
  methods : List String
  special_tokens : List (String × TokenEntry)
  features : Features

/-- token_utils.get_capabilities: the base methods plus "chat" exactly
when hasattr(tokenizer, "apply_chat_template") holds; the python code
performs no check of the chat_template attribute here. -/
def get_capabilities (tokenizer : Tokenizer) : Capabilities :=
  { methods :=
      ["capabilities", "completion", "format_test"] ++
      (if tokenizer.hasApplyChatTemplate then ["chat"] else [])
    special_tokens := get_special_tokens tokenizer
    features := get_tokenizer_features tokenizer }

/-- supports_chat_template from the main module: hasattr of the
rendering function and a chat_template attribute that is not None. -/
def supports_chat_template (tokenizer : Tokenizer) : Bool :=
  tokenizer.hasApplyChatTemplate && tokenizer.chatTemplate.isSome

/-- True when the first list is an initial segment of the second;
used to detect an occurrence of a separator at the head of a char list. -/
def leadsWith : List Char → List Char → Bool
  | [], _ => true
  | _ :: _, [] => false
  | a :: as, b :: bs => a = b && leadsWith as bs

/-- True when the first list occurs as a contiguous segment of the
second; models the python substring test used to reason about the
primer splice. -/
def containsSeg (p : List Char) : List Char → Bool
  | [] => leadsWith p []
  | c :: rest => leadsWith p (c :: rest) || containsSeg p rest

/-- Worker for the python str.split(sep) semantics with a non-empty
separator: scan left to right, cut at each leftmost match, never
overlapping; acc holds the reversed chars of the piece being built. The
fuel argument only makes the recursion structural: every step consumes
at least one character of the scanned list, so with fuel at least the
list length the out-of-fuel branch is never taken (pySplit below
supplies exactly that fuel). -/
def splitAux (sep : List Char) : Nat → List Char → List Char → List (List Char)
  | _, [], acc => [acc.reverse]
  | 0, c :: rest, acc => [acc.reverse ++ c :: rest]
  | fuel + 1, c :: rest, acc =>
    if leadsWith sep (c :: rest) then
      acc.reverse :: splitAux sep fuel (rest.drop (sep.length - 1)) []
    else
      splitAux sep fuel rest (c :: acc)

/-- python str.split(sep) on char lists (sep assumed non-empty, as in
the driver where the separator is the primer string). -/
def pySplit (sep s : List Char) : List (List Char) :=
  splitAux sep s.length s []

/-- python sep.join(parts) on char lists. -/
def joinWith (sep : List Char) : List (List Char) → List Char
  | [] => []
  | [x] => x
  | x :: y :: rest => x ++ sep ++ joinWith sep (y :: rest)

/-- The primer splice of the driver (main module, handle_chat line 139
and handle_format_test line 87): primer.join(prompt.split(primer)[0:-1])
followed by the primer itself. -/
def splicePrimer (prompt primer : String) : String :=
  ⟨joinWith primer.data ((pySplit primer.data prompt.data).dropLast) ++ primer.data⟩

/-- python substring test lifted to String, for stating the splice
claims. -/
def pyContains (s sub : String) : Bool :=
  containsSeg sub.data s.data

/-- ASCII whitespace as recognised by python str.strip (the claims only
exercise ASCII content). -/
def isPySpace (c : Char) : Bool :=
  c = ' ' || c = '\t' || c = '\n' || c = '\r' || c = Char.ofNat 11 || c = Char.ofNat 12

/-- python str.strip: remove leading and trailing whitespace. -/
def pyStrip (s : String) : String :=
  ⟨((s.data.dropWhile isPySpace).reverse.dropWhile isPySpace).reverse⟩

/-- python sep.join on String lists (used for the newline join of the
fallback serialiser). -/
def strJoin (sep : String) : List String → String
  | [] => ""
  | [x] => x
  | x :: y :: rest => x ++ sep ++ strJoin sep (y :: rest)

/-- The prompt_parts list built by generate_merged_prompt: three lines
per message, the system role rendered with the literal SYSTEM label,
every other role rendered verbatim inside the markers. -/
def promptParts : List Message → List String
  | [] => []
  | m :: rest =>
    (if m.role = "system" then
      ["<!-- begin of SYSTEM -->", pyStrip m.content, "<!-- end of SYSTEM -->"]
     else
      ["<!-- begin of " ++ m.role ++ " -->", pyStrip m.content,
       "<!-- end of " ++ m.role ++ " -->"]) ++ promptParts rest

/-- generate_merged_prompt from the main module: the fallback prompt
serialisation used when no usable chat template exists. -/
def generate_merged_prompt (messages : List Message) : String :=
  strJoin "\n" (promptParts messages)

/-- The template-path prompt computation shared by handle_chat (lines
124 to 139) and handle_format_test (lines 73 to 87): without a primer,
render with add_generation_prompt true; with a primer, append a
synthetic assistant turn, render with add_generation_prompt false and
splice the primer back with splicePrimer. A renderer exception
propagates (handle_chat) or is caught by the caller
(handle_format_test). -/
def templatePathPrompt (tokenizer : Tokenizer) (messages : List Message)
    (primer : Option String) : Except String String :=
  match primer with
  | none => tokenizer.applyChatTemplate messages true
  | some p =>
    (tokenizer.applyChatTemplate (messages ++ [⟨"assistant", p⟩]) false).map
      fun rendered => splicePrimer rendered p

/-- The prompt computed by handle_chat before generation: the fallback
serialisation plus the verbatim primer when no usable template exists,
otherwise the template path. -/
def handle_chat_prompt (tokenizer : Tokenizer) (messages : List Message)
    (primer : Option String) : Except String String :=
  if supports_chat_template tokenizer = false then
    .ok (match primer with
         | some p => generate_merged_prompt messages ++ p
         | none => generate_merged_prompt messages)
  else
    templatePathPrompt tokenizer messages primer

/-- The response object of handle_format_test. In the python code the
model_specific_processing field aliases the (mutated) messages list, so
with a primer it reports the list with the appended assistant turn. -/
structure FormatTestResult where
  formatted_prompt : Option String
  template_applied : Bool
  model_specific_processing : Option (List Message)
  error : Option String
deriving DecidableEq

/-- handle_format_test from the main module; the primer argument models
options.get("primer"). Any renderer exception is caught and reported in
the error field, leaving the fields assigned so far. -/
def handle_format_test (tokenizer : Tokenizer) (messages : List Message)
    (primer : Option String) : FormatTestResult :=
  if supports_chat_template tokenizer = true then
    match templatePathPrompt tokenizer messages primer with
    | .ok s =>
      { formatted_prompt := some s
        template_applied := true
        model_specific_processing :=
          some (match primer with
                | some p => messages ++ [⟨"assistant", p⟩]
                | none => messages)
        error := none }
    | .error e =>
      { formatted_prompt := none
        template_applied := false
        model_specific_processing :=
          some (match primer with
                | some p => messages ++ [⟨"assistant", p⟩]
                | none => messages)
        error := some e }
  else
    { formatted_prompt :=
        some (match primer with
              | some p => generate_merged_prompt messages ++ p
              | none => generate_merged_prompt messages)
      template_applied := false
      model_specific_processing := none
      error := none }

/-- One write on the protocol output stream: write models
print(s, end="") and term models print(s, end=NUL), the write of s
followed by the single NUL terminator byte. Diagnostic writes to the
error channel are not part of the protocol and are not modelled. -/
inductive Out where
  | write : String → Out
  | term : String → Out
deriving DecidableEq

/-- text.replace(NUL, empty) from generate_text: strip every literal
NUL byte from a decoded chunk before writing it. -/
def stripNul (s : String) : String :=
  ⟨s.data.filter fun c => c ≠ Char.ofNat 0⟩

/-- generate_text from the main module, over the finite chunk sequence
produced by stream_generate (the lazy sequence is modelled by the list
of chunks it would yield). On an EOD chunk: one terminator write and no
further consumption. Otherwise: one text write of the NUL-stripped
chunk text. If the sequence ends with no EOD detected, the terminator
is written once at the end. The stderr prompt log and the max_tokens
option defaulting do not affect protocol output and are not modelled. -/
def generate_text (tokenizer : Tokenizer) : List Chunk → List Out
  | [] => [Out.term "\n"]
  | c :: cs =>
    if is_eod_token c tokenizer then [Out.term "\n"]
    else Out.write (stripNul c.text) :: generate_text tokenizer cs

/-- The eight fixed probe conversations of chat_template_constraints. -/
def test_patterns : List (String × List Message) :=
  [("basic", [⟨"user", "Hello"⟩]),
   ("with-system", [⟨"system", "You are a helpful assistant."⟩, ⟨"user", "Hello"⟩]),
   ("multi-system", [⟨"system", "First system message."⟩,
                     ⟨"system", "Second system message."⟩, ⟨"user", "Hello"⟩]),
   ("consecutive-user", [⟨"user", "First question"⟩, ⟨"user", "Second question"⟩]),
   ("assistant-last", [⟨"user", "Hello"⟩, ⟨"assistant", "Hi there!"⟩]),
   ("alternating", [⟨"user", "Question 1"⟩, ⟨"assistant", "Answer 1"⟩,
                    ⟨"user", "Question 2"⟩]),
   ("empty-message", [⟨"user", ""⟩]),
   ("system-middle", [⟨"user", "First"⟩, ⟨"system", "System in middle"⟩,
                      ⟨"user", "Second"⟩])]

/-- The sparse restriction record of detect_chat_restrictions: a none
field models an absent dict key. -/
structure Restrictions where
  single_system_at_start : Option Bool
  max_system_messages : Option Nat
  alternating_turns : Option Bool
  requires_user_last : Option Bool
  allow_empty_messages : Option Bool
deriving DecidableEq

/-- The restriction record with no key set. -/
def emptyRestrictions : Restrictions :=
  ⟨none, none, none, none, none⟩

/-- Per-pattern probe execution of detect_chat_restrictions: each
pattern is rendered with tokenize False and add_generation_prompt
False; success or exception is recorded per pattern name, one failure
never aborting the rest. -/
def runTestPatterns (tokenizer : Tokenizer) : List (String × Bool) :=
  test_patterns.map fun p => (p.1, exceptOk (tokenizer.applyChatTemplate p.2 false))

/-- The test for an error entry under a pattern name, as written in
_infer_restrictions_from_results: the result dict is present and holds
an error key (a present result dict is always truthy in python). -/
def hasError (results : List (String × Bool)) (name : String) : Bool :=
  match assocLookup results name with
  | some ok => !ok
  | none => false

/-- _infer_restrictions_from_results: the independent inference rules,
followed by the final line returning None when the restrictions dict is
empty (python falsiness of the empty dict). -/
def infer_restrictions (results : List (String × Bool)) : Option Restrictions :=
  let r1 :=
    if hasError results "with-system" then
      { emptyRestrictions with max_system_messages := some 0 }
    else if hasError results "multi-system" then
      { emptyRestrictions with
          single_system_at_start := some true
          max_system_messages := some 1 }
    else emptyRestrictions
  let r2 := if hasError results "consecutive-user" then
      { r1 with alternating_turns := some true } else r1
  let r3 := if hasError results "assistant-last" then
      { r2 with requires_user_last := some true } else r2
  let r4 := if hasError results "empty-message" then
      { r3 with allow_empty_messages := some false } else r3
  if r4 = emptyRestrictions then none else some r4

/-- detect_chat_restrictions: None without the renderer, otherwise the
inference over the eight recorded probe results. -/
def detect_chat_restrictions (tokenizer : Tokenizer) : Option Restrictions :=
  if tokenizer.hasApplyChatTemplate = false then none
  else infer_restrictions (runTestPatterns tokenizer)

/-- The options mapping of a request, passed through opaquely. -/
abbrev Opts := List (String × String)

/-- A parsed protocol request: req.get of each field (none = key
absent). -/
structure Req where
  method : Option String
  messages : Option (List Message)
  prompt : Option String
  primer : Option String
  options : Opts

/-- The handler bodies invoked by the dispatch loop, abstracted as the
protocol writes they perform; an error value models an exception
escaping the handler into the dispatch try block. The concrete template
and fallback formatting they use is modelled separately above
(handle_format_test, handle_chat_prompt, generate_text). -/
structure Handlers where
  capabilities : Except Unit (List Out)
  format_test : List Message → Opts → Except Unit (List Out)
  chat : List Message → Option String → Opts → Except Unit (List Out)
  completion : String → Opts → Except Unit (List Out)

/-- The body of the main loop for one request (main, lines 207 to 254):
python falsiness of the field checks means a missing method, an empty
method string, missing or empty messages, and a missing or empty prompt
all take the degraded path writing the bare newline plus terminator; an
unknown method and an exception escaping a handler do the same. -/
def dispatch (h : Handlers) (req : Req) : List Out :=
  match req.method with
  | none => [Out.term "\n"]
  | some m =>
    if m = "" then [Out.term "\n"]
    else
      let r : Except Unit (List Out) :=
        if m = "capabilities" then h.capabilities
        else if m = "format_test" then
          match req.messages with
          | some msgs => if msgs.isEmpty then .ok [Out.term "\n"]
                         else h.format_test msgs req.options
          | none => .ok [Out.term "\n"]
        else if m = "chat" then
          match req.messages with
          | some msgs => if msgs.isEmpty then .ok [Out.term "\n"]
                         else h.chat msgs req.primer req.options
          | none => .ok [Out.term "\n"]
        else if m = "completion" then
          match req.prompt with
          | some p => if p = "" then .ok [Out.term "\n"]
                      else h.completion p req.options
          | none => .ok [Out.term "\n"]
        else .ok [Out.term "\n"]
      match r with
      | .ok outs => outs
      | .error _ => [Out.term "\n"]

/-- The read function of the main module: accumulate stdin lines until
the buffer parses as one JSON value, returning the parsed request and
the unconsumed lines. parse models json.loads (none = JSONDecodeError).
At end of input the python loop re-parses the unchanged accumulated
buffer one last time and returns its result; that final parse is None
whenever parse agrees with json.loads on the buffers of the run (the
same buffer just failed, or the buffer is empty). -/
def readAux (parse : String → Option Req) (buf : String) :
    List String → Option Req × List String
  | [] => (parse buf, [])
  | line :: rest =>
    match parse (buf ++ line) with
    | some r => (some r, rest)
    | none => readAux parse (buf ++ line) rest

/-- The main loop: read one request, dispatch it, continue with the
remaining input; exit cleanly when read yields no request. The length
guard is a termination artifact: a successful read from a non-empty
line list always leaves strictly fewer lines, and the else branch is
reachable only for a parse function accepting the empty string, which
json.loads never does. -/
def mainLoop (parse : String → Option Req) (h : Handlers) (lines : List String) :
    List Out :=
  match readAux parse "" lines with
  | (none, _) => []
  | (some req, rest) =>
    if _hlt : rest.length < lines.length then
      dispatch h req ++ mainLoop parse h rest
    else
      dispatch h req
termination_by lines.length

/-- True on a terminator write, false on a plain text write. -/
def isTermWrite : Out → Bool
  | .term _ => true
  | .write _ => false

/-- Stated from the specification words for the fallback serialiser: one
block per message made of the begin marker, the trimmed content and the
end marker joined by newlines, the system role using the literal SYSTEM
label and every other role its raw role string. -/
def specFallbackBlock (m : Message) : String :=
  let label := if m.role = "system" then "SYSTEM" else m.role
  strJoin "\n" ["<!-- begin of " ++ label ++ " -->", pyStrip m.content,
                "<!-- end of " ++ label ++ " -->"]

/-- Stated from the specification words: the fallback serialisation is
the per-message blocks joined by newlines in input order. -/
def specFallbackSerialisation (messages : List Message) : String :=
  strJoin "\n" (messages.map specFallbackBlock)

/-- All indices at which the pattern occurs in the char list. -/
def occIdxs (p s : List Char) : List Nat :=
  (List.range (s.length + 1)).filter fun i => leadsWith p (s.drop i)

/-- Stated from the claim words for the splice: the prefix of the
prompt strictly before the literal last occurrence of the primer,
concatenated with the primer (none when the primer does not occur). -/
def lastCutSpec (prompt primer : String) : Option String :=
  (occIdxs primer.data prompt.data).getLast?.map fun i =>
    ⟨prompt.data.take i ++ primer.data⟩

/-- A request whose method string is present, non-empty and none of the
four dispatched method names. -/
def UnknownMethod (req : Req) : Prop :=
  ∃ m, req.method = some m ∧
    m ∉ (["", "capabilities", "format_test", "chat", "completion"] : List String)

/-- A request missing a required field in the sense of the python
falsiness checks of main: no method or an empty one, no messages or an
empty list for format_test and chat, no prompt or an empty one for
completion. -/
def MissingRequiredField (req : Req) : Prop :=
  req.method = none ∨ req.method = some "" ∨
  ((req.method = some "format_test" ∨ req.method = some "chat") ∧
    (req.messages = none ∨ req.messages = some [])) ∨
  (req.method = some "completion" ∧ (req.prompt = none ∨ req.prompt = some ""))

/-- A dispatch in which the invoked handler raises an exception that
escapes into the try block of main. -/
def HandlerRaises (h : Handlers) (req : Req) : Prop :=
  (req.method = some "capabilities" ∧ h.capabilities = .error ()) ∨
  (∃ msgs, req.method = some "format_test" ∧ req.messages = some msgs ∧
    msgs ≠ [] ∧ h.format_test msgs req.options = .error ()) ∨
  (∃ msgs, req.method = some "chat" ∧ req.messages = some msgs ∧
    msgs ≠ [] ∧ h.chat msgs req.primer req.options = .error ()) ∨
  (∃ p, req.method = some "completion" ∧ req.prompt = some p ∧
    p ≠ "" ∧ h.completion p req.options = .error ())

/-- A minimal concrete tokenizer: no renderer, no registered special
attributes, every spelling resolving to the unknown id 0. -/
def baseTokenizer : Tokenizer :=
  { hasApplyChatTemplate := false
    applyChatTemplate := fun _ _ => .error "no chat template assigned"
    chatTemplate := none
    specialTokensMap := none
    addedTokensEncoder := none
    eos_token := none
    bos_token := none
    unk_token := none
    pad_token := none
    eos_token_id := none
    eod_token_id := none
    bos_token_id := none
    unk_token_id := some 0
    pad_token_id := none
    convert_tokens_to_ids := fun _ => 0
    vocab_size := 10
    model_max_length := none }

/-- A tokenizer exposing the rendering function while its chat_template
attribute is None: calling the renderer raises, as the python docstring
of supports_chat_template explains. -/
def tokNullTemplate : Tokenizer :=
  { baseTokenizer with hasApplyChatTemplate := true }

/-- A tokenizer whose unknown token is registered as the text with id 3
and whose text-to-id lookup maps every spelling to that unknown id. -/
def tokUnk : Tokenizer :=
  { baseTokenizer with
      unk_token := some "<unk>"
      unk_token_id := some 3
      convert_tokens_to_ids := fun _ => 3 }

/-- A tokenizer whose eos_token_id attribute is 2. -/
def tokEos2 : Tokenizer :=
  { baseTokenizer with eos_token_id := some 2 }

/-- A tokenizer with a usable template whose renderer always returns
the string in which the primer occurs twice with overlap. -/
def tokRenderAaa : Tokenizer :=
  { baseTokenizer with
      hasApplyChatTemplate := true
      chatTemplate := some "tpl"
      applyChatTemplate := fun _ _ => .ok "aaa" }

/-- A tokenizer with a usable template whose renderer always returns a
string containing the primer marker twice without overlap. -/
def tokRenderTagged : Tokenizer :=
  { baseTokenizer with
      hasApplyChatTemplate := true
      chatTemplate := some "tpl"
      applyChatTemplate := fun _ _ => .ok "x<p>mid<p>tail" }

/-- A tokenizer with a usable template whose renderer returns a string
not containing the primer marker at all. -/
def tokRenderHello : Tokenizer :=
  { baseTokenizer with
      hasApplyChatTemplate := true
      chatTemplate := some "tpl"
      applyChatTemplate := fun _ _ => .ok "hello" }

/-- A tokenizer whose renderer exists and succeeds on every probe. -/
def tokRenderOk : Tokenizer :=
  { baseTokenizer with
      hasApplyChatTemplate := true
      applyChatTemplate := fun _ _ => .ok "x" }

/-- Concrete handler set with trivially succeeding handlers. -/
def handlers0 : Handlers :=
  { capabilities := .ok [Out.term "caps"]
    format_test := fun _ _ => .ok [Out.term "fmt"]
    chat := fun _ _ _ => .ok []
    completion := fun _ _ => .ok [] }

/-- A request carrying an unknown method name. -/
def reqBogus : Req :=
  { method := some "bogus", messages := none, prompt := none,
    primer := none, options := [] }

/-- A parse function accepting every buffer as the bogus request. -/
def parseConst : String → Option Req := fun _ => some reqBogus

/-- A parse function on which every buffer fails, as json.loads does on
the accumulations of an input whose text never becomes valid JSON. -/
def parseNone : String → Option Req := fun _ => none

theorem strAppend_assoc (a b c : String) : a ++ b ++ c = a ++ (b ++ c) := by
  obtain ⟨la⟩ := a
  obtain ⟨lb⟩ := b
  obtain ⟨lc⟩ := c
  show String.mk (la ++ lb ++ lc) = String.mk (la ++ (lb ++ lc))
  rw [List.append_assoc]

theorem strJoin_cons (sep x : String) (l : List String) (hl : l ≠ []) :
    strJoin sep (x :: l) = x ++ sep ++ strJoin sep l := by
  cases l with
  | nil => exact absurd rfl hl
  | cons y ys => rfl

theorem strJoin_append (sep : String) (xs ys : List String) (hxs : xs ≠ [])
    (hys : ys ≠ []) :
    strJoin sep (xs ++ ys) = strJoin sep xs ++ sep ++ strJoin sep ys := by
  induction xs with
  | nil => exact absurd rfl hxs
  | cons x xs ih =>
    cases xs with
    | nil =>
      rw [List.singleton_append, strJoin_cons sep x ys hys]
      rfl
    | cons x2 xs2 =>
      have h1 : (x :: x2 :: xs2) ++ ys = x :: ((x2 :: xs2) ++ ys) := rfl
      rw [h1, strJoin_cons sep x ((x2 :: xs2) ++ ys) (by simp),
          ih (by simp), strJoin_cons sep x (x2 :: xs2) (by simp),
          strAppend_assoc (x ++ sep) (strJoin sep (x2 :: xs2)) sep,
          strAppend_assoc (x ++ sep)
            (strJoin sep (x2 :: xs2) ++ sep) (strJoin sep ys),
          strAppend_assoc (strJoin sep (x2 :: xs2)) sep (strJoin sep ys)]

theorem promptParts_ne_nil (m : Message) (rest : List Message) :
    promptParts (m :: rest) ≠ [] := by
  unfold promptParts
  by_cases h : m.role = "system" <;> simp [h]

theorem block_join (m : Message) :
    strJoin "\n" (if m.role = "system" then
        ["<!-- begin of SYSTEM -->", pyStrip m.content, "<!-- end of SYSTEM -->"]
      else
        ["<!-- begin of " ++ m.role ++ " -->", pyStrip m.content,
         "<!-- end of " ++ m.role ++ " -->"]) = specFallbackBlock m := by
  by_cases h : m.role = "system" <;> simp [specFallbackBlock, h]

theorem merged_eq_spec (messages : List Message) :
    generate_merged_prompt messages = specFallbackSerialisation messages := by
  induction messages with
  | nil => rfl
  | cons m rest ih =>
    unfold generate_merged_prompt specFallbackSerialisation at *
    cases rest with
    | nil =>
      show strJoin "\n" (_ ++ promptParts []) = strJoin "\n" [specFallbackBlock m]
      rw [show promptParts ([] : List Message) = [] from rfl, List.append_nil]
      show strJoin "\n" _ = specFallbackBlock m
      exact block_join m
    | cons m2 rest2 =>
      show strJoin "\n" (_ ++ promptParts (m2 :: rest2)) = _
      rw [strJoin_append "\n" _ (promptParts (m2 :: rest2))
            (by by_cases h : m.role = "system" <;> simp [h])
            (promptParts_ne_nil m2 rest2),
          block_join m, ih]
      rw [show List.map specFallbackBlock (m :: m2 :: rest2) =
            specFallbackBlock m :: List.map specFallbackBlock (m2 :: rest2) from rfl,
          strJoin_cons "\n" (specFallbackBlock m)
            (List.map specFallbackBlock (m2 :: rest2)) (by simp)]

/-- C9 (confirmed): the fallback serialisation maps each message to the
begin-marker, trimmed-content, end-marker block joined by newlines in
input order, rendering the system role as the literal SYSTEM label and
every other role verbatim; and the concrete example of the claim
produces exactly the stated string. -/
theorem C9_fallback_serialisation :
    (∀ messages : List Message,
       generate_merged_prompt messages = specFallbackSerialisation messages) ∧
    generate_merged_prompt [⟨"system", " Be nice. "⟩, ⟨"user", "Hi"⟩] =
      "<!-- begin of SYSTEM -->\nBe nice.\n<!-- end of SYSTEM -->\n<!-- begin of user -->\nHi\n<!-- end of user -->" := by
  refine ⟨merged_eq_spec, ?_⟩
  decide

/-- C1 (counterexample): a tokenizer that exposes apply_chat_template
while its chat_template attribute is None still lists chat among the
capability methods, so chat membership is not equivalent to the
two-condition test of supports_chat_template. -/
theorem C1_counterexample :
    "chat" ∈ (get_capabilities tokNullTemplate).methods ∧
    tokNullTemplate.hasApplyChatTemplate = true ∧
    tokNullTemplate.chatTemplate = none ∧
    supports_chat_template tokNullTemplate = false := by
  refine ⟨?_, rfl, rfl, rfl⟩
  decide

/-- C1 (amended): chat is present in the methods list of the
capabilities value exactly when the tokenizer exposes the
apply_chat_template rendering function, independent of whether a chat
template definition is assigned; the non-null template condition only
selects the formatting path at dispatch time. -/
theorem C1_amended (tokenizer : Tokenizer) :
    "chat" ∈ (get_capabilities tokenizer).methods ↔
      tokenizer.hasApplyChatTemplate = true := by
  unfold get_capabilities
  cases h : tokenizer.hasApplyChatTemplate <;> simp [h]

/-- C3 (code behaviour at the failing input): a chunk carrying neither
a finish reason nor a single token field but a token-id collection that
contains a member of the candidate end-id set is not detected as EOD by
is_eod_token, although the repository test suite asserts that it must
be. -/
theorem C3_code_behavior :
    is_eod_token ⟨"", none, none, some [1, 2, 3]⟩ tokEos2 = false ∧
    2 ∈ end_token_ids tokEos2 ∧ 2 ∈ ([1, 2, 3] : List Nat) := by
  decide

/-- C5 (counterexample): the standard unknown-token candidate is
recorded in special_tokens with an id equal to the unknown id of the
tokenizer, so it is false that every recorded candidate has all its
constituent ids different from the unknown id. -/
theorem C5_counterexample :
    ("unk", TokenEntry.single "<unk>" 3) ∈ get_special_tokens tokUnk ∧
    tokUnk.unk_token_id = some 3 := by
  decide

theorem assoc_key_unique {α : Type} {l : List (String × α)}
    (hnd : (l.map Prod.fst).Nodup) {a b : String × α}
    (ha : a ∈ l) (hb : b ∈ l) (hab : a.1 = b.1) : a = b := by
  induction l with
  | nil => cases ha
  | cons x xs ih =>
    rw [List.map_cons, List.nodup_cons] at hnd
    obtain ⟨hx, hxs⟩ := hnd
    cases ha with
    | head =>
      cases hb with
      | head => rfl
      | tail _ hb =>
        exact absurd (hab ▸ List.mem_map_of_mem Prod.fst hb) hx
    | tail _ ha =>
      cases hb with
      | head => exact absurd (hab ▸ List.mem_map_of_mem Prod.fst ha) hx
      | tail _ hb => exact ih hxs ha hb

theorem pair_not_std :
    ∀ x ∈ pair_tokens, x.1 ∉ (["eod", "bos", "unk", "pad"] : List String) := by
  decide

theorem single_not_std :
    ∀ x ∈ single_tokens, x.1 ∉ (["eod", "bos", "unk", "pad"] : List String) := by
  decide

theorem pair_single_ne :
    ∀ x ∈ pair_tokens, x.1 ∉ single_tokens.map Prod.fst := by
  decide

theorem pair_nodup : (pair_tokens.map Prod.fst).Nodup := by
  decide

theorem single_nodup : (single_tokens.map Prod.fst).Nodup := by
  decide

theorem std_map_fst (tokenizer : Tokenizer) :
    (standardTokens tokenizer).map Prod.fst = ["eod", "bos", "unk", "pad"] := rfl

theorem mem_standardEntries_name {tokenizer : Tokenizer} {n : String}
    {e : TokenEntry} (h : (n, e) ∈ standardEntries tokenizer) :
    n ∈ (["eod", "bos", "unk", "pad"] : List String) := by
  unfold standardEntries at h
  rw [List.mem_filterMap] at h
  obtain ⟨x, hx, hfx⟩ := h
  have hn : x.1 = n := by
    cases h1 : x.2.1 <;> cases h2 : x.2.2 <;> rw [h1, h2] at hfx <;> simp at hfx
    exact hfx.1
  exact hn ▸ std_map_fst tokenizer ▸ List.mem_map_of_mem Prod.fst hx

theorem mem_pairEntries_name {tokenizer : Tokenizer} {n : String}
    {e : TokenEntry} (h : (n, e) ∈ pairEntries tokenizer) :
    n ∈ pair_tokens.map Prod.fst := by
  unfold pairEntries at h
  rw [List.mem_filterMap] at h
  obtain ⟨x, hx, hfx⟩ := h
  simp only at hfx
  split at hfx
  · have hn : x.1 = n := by
      rw [Option.some_inj] at hfx
      exact (Prod.ext_iff.mp hfx).1
    exact hn ▸ List.mem_map_of_mem Prod.fst hx
  · exact absurd hfx (by simp)

theorem mem_singleEntries_name {tokenizer : Tokenizer} {n : String}
    {e : TokenEntry} (h : (n, e) ∈ singleEntries tokenizer) :
    n ∈ single_tokens.map Prod.fst := by
  unfold singleEntries at h
  rw [List.mem_filterMap] at h
  obtain ⟨x, hx, hfx⟩ := h
  simp only at hfx
  split at hfx
  · have hn : x.1 = n := by
      rw [Option.some_inj] at hfx
      exact (Prod.ext_iff.mp hfx).1
    exact hn ▸ List.mem_map_of_mem Prod.fst hx
  · exact absurd hfx (by simp)

theorem pairEntries_cond {tokenizer : Tokenizer} {x : String × String × String}
    (hx : x ∈ pair_tokens) {e : TokenEntry}
    (h : (x.1, e) ∈ pairEntries tokenizer) :
    some (tokenizer.convert_tokens_to_ids x.2.1) ≠ tokenizer.unk_token_id ∧
    some (tokenizer.convert_tokens_to_ids x.2.2) ≠ tokenizer.unk_token_id := by
  unfold pairEntries at h
  rw [List.mem_filterMap] at h
  obtain ⟨y, hy, hfy⟩ := h
  simp only at hfy
  split at hfy
  · rename_i hcond
    have hyx : y = x := by
      rw [Option.some_inj] at hfy
      exact assoc_key_unique pair_nodup hy hx (Prod.ext_iff.mp hfy).1
    exact hyx ▸ hcond
  · exact absurd hfy (by simp)

theorem pairEntries_intro {tokenizer : Tokenizer} {x : String × String × String}
    (hx : x ∈ pair_tokens)
    (hc : some (tokenizer.convert_tokens_to_ids x.2.1) ≠ tokenizer.unk_token_id ∧
          some (tokenizer.convert_tokens_to_ids x.2.2) ≠ tokenizer.unk_token_id) :
    (x.1, TokenEntry.pair x.2.1 (tokenizer.convert_tokens_to_ids x.2.1)
        x.2.2 (tokenizer.convert_tokens_to_ids x.2.2)) ∈ pairEntries tokenizer := by
  unfold pairEntries
  rw [List.mem_filterMap]
  exact ⟨x, hx, by simp only [if_pos hc]⟩

theorem singleEntries_cond {tokenizer : Tokenizer} {x : String × String}
    (hx : x ∈ single_tokens) {e : TokenEntry}
    (h : (x.1, e) ∈ singleEntries tokenizer) :
    some (tokenizer.convert_tokens_to_ids x.2) ≠ tokenizer.unk_token_id := by
  unfold singleEntries at h
  rw [List.mem_filterMap] at h
  obtain ⟨y, hy, hfy⟩ := h
  simp only at hfy
  split at hfy
  · rename_i hcond
    have hyx : y = x := by
      rw [Option.some_inj] at hfy
      exact assoc_key_unique single_nodup hy hx (Prod.ext_iff.mp hfy).1
    exact hyx ▸ hcond
  · exact absurd hfy (by simp)

theorem singleEntries_intro {tokenizer : Tokenizer} {x : String × String}
    (hx : x ∈ single_tokens)
    (hc : some (tokenizer.convert_tokens_to_ids x.2) ≠ tokenizer.unk_token_id) :
    (x.1, TokenEntry.single x.2 (tokenizer.convert_tokens_to_ids x.2)) ∈
      singleEntries tokenizer := by
  unfold singleEntries
  rw [List.mem_filterMap]
  exact ⟨x, hx, by simp only [if_pos hc]⟩

theorem standardEntries_cond {tokenizer : Tokenizer}
    {x : String × Option String × Option Nat}
    (hx : x ∈ standardTokens tokenizer) {e : TokenEntry}
    (h : (x.1, e) ∈ standardEntries tokenizer) :
    x.2.1 ≠ none ∧ x.2.2 ≠ none := by
  unfold standardEntries at h
  rw [List.mem_filterMap] at h
  obtain ⟨y, hy, hfy⟩ := h
  have hyx : y = x := by
    refine assoc_key_unique (l := standardTokens tokenizer) ?_ hy hx ?_
    · rw [std_map_fst]
      decide
    · cases h1 : y.2.1 <;> cases h2 : y.2.2 <;> rw [h1, h2] at hfy <;> simp at hfy
      exact hfy.1
  subst hyx
  cases h1 : y.2.1 <;> cases h2 : y.2.2 <;> rw [h1, h2] at hfy <;> simp at hfy
  simp [h1, h2]

theorem standardEntries_intro {tokenizer : Tokenizer}
    {x : String × Option String × Option Nat}
    (hx : x ∈ standardTokens tokenizer) {txt : String} {i : Nat}
    (h1 : x.2.1 = some txt) (h2 : x.2.2 = some i) :
    (x.1, TokenEntry.single txt i) ∈ standardEntries tokenizer := by
  unfold standardEntries
  rw [List.mem_filterMap]
  exact ⟨x, hx, by rw [h1, h2]⟩

/-- C5 (amended): the presence-iff-non-unknown rule holds for every
paired candidate (both resolved ids must differ from the unknown id)
and for every single-form candidate (its resolved id must differ from
the unknown id), but not for the standard candidates eod, bos, unk,
pad: a standard entry is present exactly when its token text attribute
is not None and its corresponding id attribute resolves, with no
comparison against the unknown id at all. -/
theorem C5_amended (tokenizer : Tokenizer) :
    (∀ x ∈ pair_tokens,
       ((∃ e, (x.1, e) ∈ get_special_tokens tokenizer) ↔
        (some (tokenizer.convert_tokens_to_ids x.2.1) ≠ tokenizer.unk_token_id ∧
         some (tokenizer.convert_tokens_to_ids x.2.2) ≠ tokenizer.unk_token_id))) ∧
    (∀ x ∈ single_tokens,
       ((∃ e, (x.1, e) ∈ get_special_tokens tokenizer) ↔
        some (tokenizer.convert_tokens_to_ids x.2) ≠ tokenizer.unk_token_id)) ∧
    (∀ x ∈ standardTokens tokenizer,
       ((∃ e, (x.1, e) ∈ get_special_tokens tokenizer) ↔
        (x.2.1 ≠ none ∧ x.2.2 ≠ none))) := by
  refine ⟨fun x hx => ⟨fun hex => ?_, fun hc => ?_⟩,
          fun x hx => ⟨fun hex => ?_, fun hc => ?_⟩,
          fun x hx => ⟨fun hex => ?_, fun hc => ?_⟩⟩
  · obtain ⟨e, he⟩ := hex
    rw [get_special_tokens, List.mem_append, List.mem_append] at he
    rcases he with (he | he) | he
    · exact absurd (mem_standardEntries_name he) (pair_not_std x hx)
    · exact pairEntries_cond hx he
    · exact absurd (mem_singleEntries_name he) (pair_single_ne x hx)
  · refine ⟨TokenEntry.pair x.2.1 (tokenizer.convert_tokens_to_ids x.2.1)
        x.2.2 (tokenizer.convert_tokens_to_ids x.2.2), ?_⟩
    rw [get_special_tokens, List.mem_append, List.mem_append]
    exact Or.inl (Or.inr (pairEntries_intro hx hc))
  · obtain ⟨e, he⟩ := hex
    rw [get_special_tokens, List.mem_append, List.mem_append] at he
    rcases he with (he | he) | he
    · exact absurd (mem_standardEntries_name he) (single_not_std x hx)
    · exact absurd (mem_pairEntries_name he)
        (by intro hmem
            obtain ⟨y, hy, hyx⟩ := List.mem_map.mp hmem
            exact pair_single_ne y hy (hyx ▸ List.mem_map_of_mem Prod.fst hx))
    · exact singleEntries_cond hx he
  · refine ⟨TokenEntry.single x.2 (tokenizer.convert_tokens_to_ids x.2), ?_⟩
    rw [get_special_tokens, List.mem_append, List.mem_append]
    exact Or.inr (singleEntries_intro hx hc)
  · obtain ⟨e, he⟩ := hex
    rw [get_special_tokens, List.mem_append, List.mem_append] at he
    have hstd : x.1 ∈ (["eod", "bos", "unk", "pad"] : List String) :=
      std_map_fst tokenizer ▸ List.mem_map_of_mem Prod.fst hx
    rcases he with (he | he) | he
    · exact standardEntries_cond hx he
    · exact absurd hstd (by
        intro _
        exact (by
          obtain ⟨y, hy, hyx⟩ := List.mem_map.mp (mem_pairEntries_name he)
          exact pair_not_std y hy (hyx ▸ hstd)))
    · exact absurd hstd (by
        intro _
        exact (by
          obtain ⟨y, hy, hyx⟩ := List.mem_map.mp (mem_singleEntries_name he)
          exact single_not_std y hy (hyx ▸ hstd)))
  · obtain ⟨txt, h1⟩ := Option.ne_none_iff_exists'.mp hc.1
    obtain ⟨i, h2⟩ := Option.ne_none_iff_exists'.mp hc.2
    refine ⟨TokenEntry.single txt i, ?_⟩
    rw [get_special_tokens, List.mem_append, List.mem_append]
    exact Or.inl (Or.inl (standardEntries_intro hx h1 h2))

/-- C5 (witness for the amended theorem): the paired system candidate
of the concrete tokenizer whose every spelling resolves to the unknown
id 3 is present exactly when both resolved ids differ from that id. -/
theorem C5_amended_witness :
    (∃ e, ("system", e) ∈ get_special_tokens tokUnk) ↔
      (some (tokUnk.convert_tokens_to_ids "<|system|>") ≠ tokUnk.unk_token_id ∧
       some (tokUnk.convert_tokens_to_ids "<|/system|>") ≠ tokUnk.unk_token_id) :=
  (C5_amended tokUnk).1 ("system", "<|system|>", "<|/system|>") (by decide)

/-- C8 (counterexample): a tokenizer with no chat renderer and a
tokenizer whose renderer succeeds on all eight probe conversations
yield the same None result from detect_chat_restrictions, so the
not-applicable case is not distinguishable from the
no-constraints-found case. -/
theorem C8_counterexample :
    detect_chat_restrictions baseTokenizer = none ∧
    detect_chat_restrictions tokRenderOk = none ∧
    baseTokenizer.hasApplyChatTemplate = false ∧
    tokRenderOk.hasApplyChatTemplate = true ∧
    (∀ pat ∈ test_patterns,
       exceptOk (tokRenderOk.applyChatTemplate pat.2 false) = true) := by
  decide

theorem leadsWith_nil {p : List Char} (hp : p ≠ []) : leadsWith p [] = false := by
  cases p with
  | nil => exact absurd rfl hp
  | cons a as => rfl

theorem containsSeg_nil {p : List Char} (hp : p ≠ []) : containsSeg p [] = false :=
  leadsWith_nil hp

theorem containsSeg_cons (p : List Char) (c : Char) (rest : List Char) :
    containsSeg p (c :: rest) = (leadsWith p (c :: rest) || containsSeg p rest) := rfl

theorem leadsWith_append {p : List Char} :
    ∀ {s : List Char}, leadsWith p s = true → s = p ++ s.drop p.length := by
  induction p with
  | nil => intro s _; simp
  | cons d ds ih =>
    intro s h
    cases s with
    | nil => simp [leadsWith] at h
    | cons c rest =>
      have h2 : d = c ∧ leadsWith ds rest = true := by
        simpa [leadsWith, Bool.and_eq_true, decide_eq_true_eq] using h
      obtain ⟨hdc, hrest⟩ := h2
      subst hdc
      show d :: rest = d :: (ds ++ rest.drop ds.length)
      exact congrArg (d :: ·) (ih hrest)

theorem lw_drop {p : List Char} (hp : p ≠ []) (c : Char) (rest : List Char) :
    (c :: rest).drop p.length = rest.drop (p.length - 1) := by
  cases p with
  | nil => exact absurd rfl hp
  | cons d ds => rfl

theorem splitAux_ne_nil (sep : List Char) :
    ∀ (fuel : Nat) (s acc : List Char), splitAux sep fuel s acc ≠ [] := by
  intro fuel
  induction fuel with
  | zero => intro s acc; cases s <;> simp [splitAux]
  | succ fuel ih =>
    intro s acc
    cases s with
    | nil => simp [splitAux]
    | cons c rest =>
      cases hl : leadsWith sep (c :: rest) with
      | true => simp [splitAux, hl]
      | false =>
        simp only [splitAux, hl, Bool.false_eq_true, if_false]
        exact ih rest (c :: acc)

theorem splitAux_acc (sep : List Char) :
    ∀ (fuel : Nat) (s : List Char), s.length ≤ fuel →
      ∃ h t, ∀ acc, splitAux sep fuel s acc = (acc.reverse ++ h) :: t := by
  intro fuel
  induction fuel with
  | zero =>
    intro s hle
    have hs : s = [] := List.eq_nil_of_length_eq_zero (Nat.le_zero.mp hle)
    subst hs
    exact ⟨[], [], fun acc => by simp [splitAux]⟩
  | succ fuel ih =>
    intro s hle
    cases s with
    | nil => exact ⟨[], [], fun acc => by simp [splitAux]⟩
    | cons c rest =>
      have hr : rest.length ≤ fuel := by
        simp only [List.length_cons] at hle
        omega
      cases hl : leadsWith sep (c :: rest) with
      | true =>
        exact ⟨[], splitAux sep fuel (rest.drop (sep.length - 1)) [],
          fun acc => by simp [splitAux, hl]⟩
      | false =>
        obtain ⟨h, t, hht⟩ := ih rest hr
        refine ⟨c :: h, t, fun acc => ?_⟩
        simp only [splitAux, hl, Bool.false_eq_true, if_false]
        rw [hht (c :: acc)]
        simp

theorem splitAux_no_occ (sep : List Char) (_hp : sep ≠ []) :
    ∀ (fuel : Nat) (s acc : List Char), s.length ≤ fuel →
      containsSeg sep s = false → splitAux sep fuel s acc = [acc.reverse ++ s] := by
  intro fuel
  induction fuel with
  | zero =>
    intro s acc hle hc
    have hs : s = [] := List.eq_nil_of_length_eq_zero (Nat.le_zero.mp hle)
    subst hs
    simp [splitAux]
  | succ fuel ih =>
    intro s acc hle hc
    cases s with
    | nil => simp [splitAux]
    | cons c rest =>
      rw [containsSeg_cons] at hc
      obtain ⟨h1, h2⟩ := Bool.or_eq_false_iff.mp hc
      have hr : rest.length ≤ fuel := by
        simp only [List.length_cons] at hle
        omega
      simp only [splitAux, h1, Bool.false_eq_true, if_false]
      rw [ih rest (c :: acc) hr h2]
      simp

theorem splitAux_two (sep : List Char) (hp : sep ≠ []) :
    ∀ (fuel : Nat) (s : List Char), s.length ≤ fuel → containsSeg sep s = true →
      ∃ x y ys, splitAux sep fuel s [] = x :: y :: ys := by
  intro fuel
  induction fuel with
  | zero =>
    intro s hle hc
    have hs : s = [] := List.eq_nil_of_length_eq_zero (Nat.le_zero.mp hle)
    subst hs
    rw [containsSeg_nil hp] at hc
    exact absurd hc (by simp)
  | succ fuel ih =>
    intro s hle hc
    cases s with
    | nil =>
      rw [containsSeg_nil hp] at hc
      exact absurd hc (by simp)
    | cons c rest =>
      have hr : rest.length ≤ fuel := by
        simp only [List.length_cons] at hle
        omega
      cases hl : leadsWith sep (c :: rest) with
      | true =>
        cases hsp : splitAux sep fuel (rest.drop (sep.length - 1)) [] with
        | nil => exact absurd hsp (splitAux_ne_nil sep fuel _ [])
        | cons y ys => exact ⟨[], y, ys, by simp [splitAux, hl, hsp]⟩
      | false =>
        have h2 : containsSeg sep rest = true := by
          rw [containsSeg_cons, hl] at hc
          simpa using hc
        obtain ⟨x, y, ys, hxy⟩ := ih rest hr h2
        obtain ⟨hh, tt, hacc⟩ := splitAux_acc sep fuel rest hr
        have h0 : hh :: tt = x :: y :: ys := by
          have := hacc []
          rw [hxy] at this
          simpa using this.symm
        refine ⟨c :: x, y, ys, ?_⟩
        simp only [splitAux, hl, Bool.false_eq_true, if_false]
        rw [hacc [c]]
        rw [List.cons.injEq] at h0
        rw [h0.2]
        simp [h0.1]

theorem joinWith_cons_head (sep a x : List Char) (l : List (List Char)) :
    joinWith sep ((a ++ x) :: l) = a ++ joinWith sep (x :: l) := by
  cases l with
  | nil => rfl
  | cons z zs =>
    show (a ++ x) ++ sep ++ joinWith sep (z :: zs) =
      a ++ (x ++ sep ++ joinWith sep (z :: zs))
    simp [List.append_assoc]

theorem split_decomp (sep : List Char) (hp : sep ≠ []) :
    ∀ (fuel : Nat) (s : List Char), s.length ≤ fuel → containsSeg sep s = true →
      ∃ b r, joinWith sep ((splitAux sep fuel s []).dropLast) = b ∧
             s = b ++ sep ++ r ∧ containsSeg sep r = false := by
  intro fuel
  induction fuel with
  | zero =>
    intro s hle hc
    have hs : s = [] := List.eq_nil_of_length_eq_zero (Nat.le_zero.mp hle)
    subst hs
    rw [containsSeg_nil hp] at hc
    exact absurd hc (by simp)
  | succ fuel ih =>
    intro s hle hc
    cases s with
    | nil =>
      rw [containsSeg_nil hp] at hc
      exact absurd hc (by simp)
    | cons c rest =>
      have hr : rest.length ≤ fuel := by
        simp only [List.length_cons] at hle
        omega
      cases hl : leadsWith sep (c :: rest) with
      | true =>
        have hdecomp : c :: rest = sep ++ rest.drop (sep.length - 1) := by
          have h1 := leadsWith_append hl
          rw [lw_drop hp] at h1
          exact h1
        have hs2 : (rest.drop (sep.length - 1)).length ≤ fuel := by
          have hd := List.length_drop (sep.length - 1) rest
          omega
        have hsplit : splitAux sep (fuel + 1) (c :: rest) [] =
            [] :: splitAux sep fuel (rest.drop (sep.length - 1)) [] := by
          simp [splitAux, hl]
        cases hc2 : containsSeg sep (rest.drop (sep.length - 1)) with
        | true =>
          obtain ⟨b2, r2, hj2, hdec2, hr2⟩ := ih (rest.drop (sep.length - 1)) hs2 hc2
          obtain ⟨x, y, ys, hxy⟩ := splitAux_two sep hp fuel (rest.drop (sep.length - 1)) hs2 hc2
          refine ⟨sep ++ b2, r2, ?_, ?_, hr2⟩
          · rw [hsplit, hxy]
            show [] ++ sep ++ joinWith sep (x :: (y :: ys).dropLast) = sep ++ b2
            rw [← hj2, hxy]
            rfl
          · rw [hdecomp, hdec2]
            simp [List.append_assoc]
        | false =>
          have hsp2 : splitAux sep fuel (rest.drop (sep.length - 1)) [] =
              [rest.drop (sep.length - 1)] := by
            have h := splitAux_no_occ sep hp fuel (rest.drop (sep.length - 1)) [] hs2 hc2
            simpa using h
          refine ⟨[], rest.drop (sep.length - 1), ?_, ?_, hc2⟩
          · rw [hsplit, hsp2]
            rfl
          · rw [hdecomp]
            rfl
      | false =>
        have h2 : containsSeg sep rest = true := by
          rw [containsSeg_cons, hl] at hc
          simpa using hc
        obtain ⟨b2, r2, hj2, hdec2, hr2⟩ := ih rest hr h2
        obtain ⟨x, y, ys, hxy⟩ := splitAux_two sep hp fuel rest hr h2
        obtain ⟨hh, tt, hacc⟩ := splitAux_acc sep fuel rest hr
        have h0 : hh :: tt = x :: y :: ys := by
          have := hacc []
          rw [hxy] at this
          simpa using this.symm
        rw [List.cons.injEq] at h0
        have hsplitc : splitAux sep (fuel + 1) (c :: rest) [] = (c :: x) :: y :: ys := by
          simp only [splitAux, hl, Bool.false_eq_true, if_false]
          rw [hacc [c], h0.2]
          simp [h0.1]
        refine ⟨c :: b2, r2, ?_, ?_, hr2⟩
        · rw [hsplitc]
          show joinWith sep (([c] ++ x) :: (y :: ys).dropLast) = c :: b2
          rw [joinWith_cons_head sep [c] x ((y :: ys).dropLast)]
          rw [← hj2, hxy]
          rfl
        · rw [hdec2]
          rfl

theorem splicePrimer_decomp (s p : String) (hp : p ≠ "")
    (hocc : pyContains s p = true) :
    ∃ b r : String, splicePrimer s p = b ++ p ∧ s = b ++ p ++ r ∧
      pyContains r p = false := by
  obtain ⟨sl⟩ := s
  obtain ⟨pl⟩ := p
  have hpl : pl ≠ [] := by
    intro hnil
    exact hp (by rw [hnil])
  obtain ⟨bl, rl, hj, hdec, hrl⟩ :=
    split_decomp pl hpl sl.length sl le_rfl hocc
  refine ⟨⟨bl⟩, ⟨rl⟩, ?_, ?_, hrl⟩
  · show String.mk (joinWith pl ((splitAux pl sl.length sl []).dropLast) ++ pl) =
      String.mk (bl ++ pl)
    rw [hj]
  · show String.mk sl = String.mk (bl ++ pl ++ rl)
    rw [hdec]

theorem splicePrimer_no_occ (s p : String) (hnocc : pyContains s p = false) :
    splicePrimer s p = p := by
  obtain ⟨sl⟩ := s
  obtain ⟨pl⟩ := p
  have hpl : pl ≠ [] := by
    intro hnil
    subst hnil
    have htrue : containsSeg [] sl = true := by
      cases sl with
      | nil => rfl
      | cons c rest =>
        rw [containsSeg_cons]
        simp [leadsWith]
    rw [show pyContains ⟨sl⟩ ⟨[]⟩ = containsSeg [] sl from rfl, htrue] at hnocc
    exact absurd hnocc (by simp)
  have hsp : splitAux pl sl.length sl [] = [sl] := by
    simpa using splitAux_no_occ pl hpl sl.length sl [] le_rfl hnocc
  show String.mk (joinWith pl ((splitAux pl sl.length sl []).dropLast) ++ pl) =
    String.mk pl
  rw [hsp]
  rfl

/-- C6 (counterexample): with the rendered template string aaa and the
primer aa, which occurs in the render, the spliced prompt computed on
the template path is aa, while the prefix strictly before the literal
last occurrence of the primer concatenated with the primer is aaa: the
splice anchors on the greedy non-overlapping scan, not on the literal
last occurrence. -/
theorem C6_counterexample :
    pyContains "aaa" "aa" = true ∧
    lastCutSpec "aaa" "aa" = some "aaa" ∧
    handle_chat_prompt tokRenderAaa [⟨"user", "hi"⟩] (some "aa") = .ok "aa" ∧
    (handle_format_test tokRenderAaa [⟨"user", "hi"⟩]
        (some "aa")).formatted_prompt = some "aa" ∧
    ("aa" : String) ≠ "aaa" := by
  refine ⟨by decide, by decide, rfl, rfl, by decide⟩

/-- C6 (amended): for every rendered template string s and non-empty
primer p occurring in s, the spliced prompt of the template path (for
both chat and format_test) is a prefix of s ending in p after which p
does not occur again: it cuts at the last occurrence of the greedy
left-to-right non-overlapping scan. When occurrences of p in s overlap,
this can differ from the literal last occurrence of p as a substring. -/
theorem C6_amended (tokenizer : Tokenizer) (messages : List Message) (p s : String)
    (hsupp : supports_chat_template tokenizer = true)
    (hrender : tokenizer.applyChatTemplate
      (messages ++ [⟨"assistant", p⟩]) false = .ok s)
    (hp : p ≠ "") (hocc : pyContains s p = true) :
    ∃ b r : String,
      handle_chat_prompt tokenizer messages (some p) = .ok (b ++ p) ∧
      (handle_format_test tokenizer messages (some p)).formatted_prompt =
        some (b ++ p) ∧
      splicePrimer s p = b ++ p ∧ s = b ++ p ++ r ∧ pyContains r p = false := by
  obtain ⟨b, r, h1, h2, h3⟩ := splicePrimer_decomp s p hp hocc
  have htp : templatePathPrompt tokenizer messages (some p) =
      .ok (splicePrimer s p) := by
    show Except.map (fun rendered => splicePrimer rendered p)
      (tokenizer.applyChatTemplate (messages ++ [⟨"assistant", p⟩]) false) = _
    rw [hrender]
    rfl
  refine ⟨b, r, ?_, ?_, h1, h2, h3⟩
  · unfold handle_chat_prompt
    simp [hsupp, htp, h1]
  · unfold handle_format_test
    simp [hsupp, htp, h1]

/-- C6 (witness for the amended theorem): at the concrete render
containing the primer marker twice without overlap, the spliced prompt
of both paths ends at the second marker. -/
theorem C6_amended_witness :
    ∃ b r : String,
      handle_chat_prompt tokRenderTagged [⟨"user", "hi"⟩] (some "<p>") =
        .ok (b ++ "<p>") ∧
      (handle_format_test tokRenderTagged [⟨"user", "hi"⟩]
          (some "<p>")).formatted_prompt = some (b ++ "<p>") ∧
      splicePrimer "x<p>mid<p>tail" "<p>" = b ++ "<p>" ∧
      "x<p>mid<p>tail" = b ++ "<p>" ++ r ∧
      pyContains r "<p>" = false :=
  C6_amended tokRenderTagged [⟨"user", "hi"⟩] "<p>" "x<p>mid<p>tail"
    rfl rfl (by decide) (by decide)

/-- C10 (confirmed): on the template path of chat and format_test, when
the primer does not occur in the rendered output, the splice returns
exactly the primer alone, discarding the entire rendered conversation
prompt. -/
theorem C10_primer_alone (tokenizer : Tokenizer) (messages : List Message)
    (p s : String)
    (hsupp : supports_chat_template tokenizer = true)
    (hrender : tokenizer.applyChatTemplate
      (messages ++ [⟨"assistant", p⟩]) false = .ok s)
    (hnocc : pyContains s p = false) :
    handle_chat_prompt tokenizer messages (some p) = .ok p ∧
    (handle_format_test tokenizer messages (some p)).formatted_prompt = some p := by
  have hs := splicePrimer_no_occ s p hnocc
  have htp : templatePathPrompt tokenizer messages (some p) = .ok p := by
    show Except.map (fun rendered => splicePrimer rendered p)
      (tokenizer.applyChatTemplate (messages ++ [⟨"assistant", p⟩]) false) = _
    rw [hrender]
    show Except.ok (splicePrimer s p) = Except.ok p
    rw [hs]
  constructor
  · unfold handle_chat_prompt
    simp [hsupp, htp]
  · unfold handle_format_test
    simp [hsupp, htp]

/-- C10 (witness): at a concrete render not containing the primer
marker, both paths return exactly the primer. -/
theorem C10_primer_alone_witness :
    handle_chat_prompt tokRenderHello [⟨"user", "hi"⟩] (some "<p>") = .ok "<p>" ∧
    (handle_format_test tokRenderHello [⟨"user", "hi"⟩]
        (some "<p>")).formatted_prompt = some "<p>" :=
  C10_primer_alone tokRenderHello [⟨"user", "hi"⟩] "<p>" "hello"
    rfl rfl (by decide)

/-- C2 (confirmed): for a chunk sequence whose prefix is EOD-free and
which then reaches an EOD chunk, the streamer performs exactly the text
writes of the prefix followed by exactly one terminator write, and its
output does not depend on any chunk after the EOD chunk; for an
EOD-free sequence, every chunk is written as text followed by exactly
one terminator write; outputs of either shape contain exactly one
terminator write. -/
theorem C2_streamer (tokenizer : Tokenizer) :
    (∀ (pre : List Chunk) (e : Chunk) (post : List Chunk),
       (∀ c ∈ pre, is_eod_token c tokenizer = false) →
       is_eod_token e tokenizer = true →
       generate_text tokenizer (pre ++ e :: post) =
         pre.map (fun c => Out.write (stripNul c.text)) ++ [Out.term "\n"]) ∧
    (∀ chunks : List Chunk,
       (∀ c ∈ chunks, is_eod_token c tokenizer = false) →
       generate_text tokenizer chunks =
         chunks.map (fun c => Out.write (stripNul c.text)) ++ [Out.term "\n"]) ∧
    (∀ l : List Chunk,
       (l.map (fun c => Out.write (stripNul c.text)) ++
         [Out.term "\n"]).countP isTermWrite = 1) := by
  refine ⟨?_, ?_, ?_⟩
  · intro pre e post hpre heod
    induction pre with
    | nil => simp [generate_text, heod]
    | cons c cs ih =>
      have hc : is_eod_token c tokenizer = false := hpre c (by simp)
      have hcs : ∀ x ∈ cs, is_eod_token x tokenizer = false :=
        fun x hx => hpre x (by simp [hx])
      simp only [List.cons_append, generate_text, hc, Bool.false_eq_true, if_false,
        List.map_cons, List.append_eq]
      rw [ih hcs]
  · intro chunks hall
    induction chunks with
    | nil => rfl
    | cons c cs ih =>
      have hc : is_eod_token c tokenizer = false := hall c (by simp)
      have hcs : ∀ x ∈ cs, is_eod_token x tokenizer = false :=
        fun x hx => hall x (by simp [hx])
      simp only [generate_text, hc, Bool.false_eq_true, if_false, List.map_cons]
      rw [ih hcs]
      rfl
  · intro l
    rw [List.countP_append, List.countP_map]
    have h0 : l.countP (isTermWrite ∘ fun c => Out.write (stripNul c.text)) = 0 :=
      List.countP_eq_zero.mpr (fun c _ => by simp [Function.comp, isTermWrite])
    rw [h0]
    rfl

/-- C2 (witness): with the eos id 2, a sequence whose second chunk is
the EOD chunk produces one text write then the terminator regardless of
the trailing chunk, and an EOD-free one-chunk sequence produces its
text write then the terminator. -/
theorem C2_streamer_witness :
    generate_text tokEos2
        [⟨"ab", none, some 1, none⟩, ⟨"", none, some 2, none⟩,
         ⟨"cd", none, some 3, none⟩] =
      [(⟨"ab", none, some 1, none⟩ : Chunk)].map
        (fun c => Out.write (stripNul c.text)) ++ [Out.term "\n"] ∧
    generate_text tokEos2 [⟨"ab", none, some 1, none⟩] =
      [(⟨"ab", none, some 1, none⟩ : Chunk)].map
        (fun c => Out.write (stripNul c.text)) ++ [Out.term "\n"] :=
  ⟨(C2_streamer tokEos2).1 [⟨"ab", none, some 1, none⟩]
      ⟨"", none, some 2, none⟩ [⟨"cd", none, some 3, none⟩]
      (by decide) (by decide),
   (C2_streamer tokEos2).2.1 [⟨"ab", none, some 1, none⟩] (by decide)⟩

/-- C8 (amended): a tokenizer without the rendering function yields
None from detect_chat_restrictions, and a tokenizer whose renderer
succeeds on all eight probe conversations also yields None: the
not-applicable signal and the no-constraints-found outcome are the same
null result, not distinguishable. -/
theorem C8_amended (tokA tokB : Tokenizer)
    (hA : tokA.hasApplyChatTemplate = false)
    (hB : tokB.hasApplyChatTemplate = true)
    (hsucc : ∀ pat ∈ test_patterns,
       exceptOk (tokB.applyChatTemplate pat.2 false) = true) :
    detect_chat_restrictions tokA = none ∧
    detect_chat_restrictions tokB = none ∧
    detect_chat_restrictions tokA = detect_chat_restrictions tokB := by
  have hAn : detect_chat_restrictions tokA = none := by
    unfold detect_chat_restrictions
    rw [hA]
    simp
  have hrun : runTestPatterns tokB = test_patterns.map (fun p => (p.1, true)) := by
    unfold runTestPatterns
    exact List.map_congr_left (fun p hp => by rw [hsucc p hp])
  have hBn : detect_chat_restrictions tokB = none := by
    unfold detect_chat_restrictions
    rw [hB]
    simp only [Bool.true_eq_false, if_false]
    rw [hrun]
    decide
  exact ⟨hAn, hBn, by rw [hAn, hBn]⟩

/-- C8 (witness for the amended theorem): the two concrete tokenizers
of the counterexample instantiate the amended statement. -/
theorem C8_amended_witness :
    detect_chat_restrictions baseTokenizer = none ∧
    detect_chat_restrictions tokRenderOk = none ∧
    detect_chat_restrictions baseTokenizer = detect_chat_restrictions tokRenderOk :=
  C8_amended baseTokenizer tokRenderOk rfl rfl (by decide)

theorem str_nil_append (s : String) : "" ++ s = s := by
  obtain ⟨l⟩ := s
  rfl

theorem readAux_fst_none (parse : String → Option Req)
    (hfail : ∀ s, parse s = none) :
    ∀ (lines : List String) (buf : String), (readAux parse buf lines).1 = none := by
  intro lines
  induction lines with
  | nil => intro buf; simp [readAux, hfail]
  | cons line rest ih =>
    intro buf
    simp only [readAux, hfail]
    exact ih (buf ++ line)

theorem mainLoop_allfail (parse : String → Option Req) (h : Handlers)
    (hfail : ∀ s, parse s = none) (lines : List String) :
    mainLoop parse h lines = [] := by
  have h1 : (readAux parse "" lines).1 = none := readAux_fst_none parse hfail lines ""
  unfold mainLoop
  rcases hr : readAux parse "" lines with ⟨fst, snd⟩
  rw [hr] at h1
  simp only at h1
  subst h1
  simp

theorem readAux_cons_some (parse : String → Option Req) (line : String)
    (rest : List String) (req : Req) (hp : parse line = some req) :
    readAux parse "" (line :: rest) = (some req, rest) := by
  simp only [readAux, str_nil_append, hp]

theorem mainLoop_cons (parse : String → Option Req) (h : Handlers)
    (line : String) (rest : List String) (req : Req)
    (hp : parse line = some req) :
    mainLoop parse h (line :: rest) = dispatch h req ++ mainLoop parse h rest := by
  conv_lhs => unfold mainLoop
  rw [readAux_cons_some parse line rest req hp]
  simp only
  rw [dif_pos (by simp : rest.length < (line :: rest).length)]

theorem dispatch_degraded (h : Handlers) (req : Req)
    (hbad : UnknownMethod req ∨ MissingRequiredField req ∨ HandlerRaises h req) :
    dispatch h req = [Out.term "\n"] := by
  rcases hbad with ⟨m, hm, hmem⟩ | hmiss | hra
  · simp only [List.mem_cons, List.mem_singleton, not_or] at hmem
    obtain ⟨h0, h1, h2, h3, h4, _⟩ := hmem
    simp [dispatch, hm, h0, h1, h2, h3, h4]
  · rcases hmiss with hnone | hempty | ⟨hmeth, hmsgs⟩ | ⟨hmeth, hpr⟩
    · simp [dispatch, hnone]
    · simp [dispatch, hempty]
    · rcases hmeth with hft | hchat
      · rcases hmsgs with hn | he
        · simp [dispatch, hft, hn]
        · simp [dispatch, hft, he]
      · rcases hmsgs with hn | he
        · simp [dispatch, hchat, hn]
        · simp [dispatch, hchat, he]
    · rcases hpr with hn | he
      · simp [dispatch, hmeth, hn]
      · simp [dispatch, hmeth, he]
  · rcases hra with ⟨hmeth, herr⟩ | ⟨msgs, hmeth, hmsgs, hne, herr⟩ |
      ⟨msgs, hmeth, hmsgs, hne, herr⟩ | ⟨p, hmeth, hpr, hne, herr⟩
    · simp [dispatch, hmeth, herr]
    · have hempty : msgs.isEmpty = false := by
        cases msgs with
        | nil => exact absurd rfl hne
        | cons a as => rfl
      simp [dispatch, hmeth, hmsgs, hempty, herr]
    · have hempty : msgs.isEmpty = false := by
        cases msgs with
        | nil => exact absurd rfl hne
        | cons a as => rfl
      simp [dispatch, hmeth, hmsgs, hempty, herr]
    · simp [dispatch, hmeth, hpr, hne, herr]

/-- C4 (counterexample): on an input line that is not valid JSON and
whose accumulations never become valid JSON (json.loads fails on every
buffer of this run, which the all-failing parse function models), the
protocol loop writes nothing at all: the claimed empty terminated
response is never produced and the loop does not continue to a next
request. -/
theorem C4_counterexample :
    mainLoop parseNone handlers0 ["notjson"] = [] ∧
    ([] : List Out) ≠ [Out.term "\n"] :=
  ⟨mainLoop_allfail parseNone handlers0 (fun _ => rfl) ["notjson"], by simp⟩

/-- C4 (amended): a request whose accumulated input never parses is
never answered: the read loop keeps folding further lines into the
buffer until end of input, and the main loop then exits cleanly,
producing no output at all for it, in particular no empty terminated
response. -/
theorem C4_amended (parse : String → Option Req) (h : Handlers)
    (lines : List String) (hfail : ∀ s, parse s = none) :
    mainLoop parse h lines = [] ∧ mainLoop parse h lines ≠ [Out.term "\n"] := by
  have h1 := mainLoop_allfail parse h hfail lines
  exact ⟨h1, by rw [h1]; simp⟩

/-- C4 (witness for the amended theorem): the concrete all-failing
input instantiates the amended statement. -/
theorem C4_amended_witness :
    mainLoop parseNone handlers0 ["notjson"] = [] ∧
    mainLoop parseNone handlers0 ["notjson"] ≠ [Out.term "\n"] :=
  C4_amended parseNone handlers0 ["notjson"] (fun _ => rfl)

/-- C7 (confirmed): for a request with an unknown method, a request
missing a required field (method; messages for format_test and chat;
prompt for completion), and a dispatch in which the handler raises, the
protocol loop writes exactly a bare newline followed by the NUL
terminator with no error payload, and then proceeds to read the next
request. -/
theorem C7_degraded_paths (h : Handlers) (parse : String → Option Req)
    (line : String) (rest : List String) (req : Req)
    (hp : parse line = some req)
    (hbad : UnknownMethod req ∨ MissingRequiredField req ∨ HandlerRaises h req) :
    dispatch h req = [Out.term "\n"] ∧
    mainLoop parse h (line :: rest) =
      [Out.term "\n"] ++ mainLoop parse h rest := by
  have hd := dispatch_degraded h req hbad
  exact ⟨hd, by rw [mainLoop_cons parse h line rest req hp, hd]⟩

/-- C7 (witness): the concrete unknown-method request yields exactly
the bare terminator write and the loop continues with the remaining
input. -/
theorem C7_degraded_paths_witness :
    dispatch handlers0 reqBogus = [Out.term "\n"] ∧
    mainLoop parseConst handlers0 ["x"] =
      [Out.term "\n"] ++ mainLoop parseConst handlers0 [] :=
  C7_degraded_paths handlers0 parseConst "x" [] reqBogus rfl
    (Or.inl ⟨"bogus", rfl, by decide⟩)

end MlxDriver
